import Mathlib

/-!
Verification of the client-side request/stream layer of the AIPdfDoc
repository: the api client (`templates/js/api.js`: `ApiClient`,
`RequestRetrier`, `RequestInterceptor`, `CacheManager`, `SearchAPI`) and the
chat/file managers (`ChatManager`, `FileManager`).  Each JS component is
shallowly embedded as an executable Lean function; machine integers do not
occur (all arithmetic is on small naturals), and fallible operations return
`Option`/`Except`.
-/

namespace AIPdfDoc

/-- A stream event as dispatched by `SearchAPI.searchStream` to its
`onMessage` subscriber and consumed by the `switch (data.type)` handler in
`ChatManager.sendMessage`.  Payload fields are `Option String` because a JSON
field missing from the parsed object is `undefined` in the source.  `other`
covers successfully parsed objects whose `type` tag is not one of the protocol
tags handled by the switch (the source dispatches every parsed object). -/
inductive StreamEvent where
  | start
  | progress (message : Option String)
  | content (text : Option String)
  | sources (srcs : List String)
  | done
  | error (message : Option String)
  | other (ty : Option String)
deriving DecidableEq, Repr

/-- JSON string escapes as accepted by `JSON.parse` for the escape characters
this protocol uses.  `\u` hex escapes are not modelled: a line containing one
fails to parse in the model, which merely makes the consumer skip it exactly
like any other malformed line. -/
def escChar (c : Char) : Option Char :=
  if c = 'n' then some '\n'
  else if c = 't' then some '\t'
  else if c = 'r' then some '\r'
  else if c = '"' then some '"'
  else if c = '\\' then some '\\'
  else if c = '/' then some '/'
  else if c = 'b' then some (Char.ofNat 8)
  else if c = 'f' then some (Char.ofNat 12)
  else none

/-- Parse the body of a JSON string, after the opening quote: returns the
decoded characters and the input remaining after the closing quote; `none` on
an unterminated string or a bad escape (as `JSON.parse` throws there). -/
def parseStringBody : List Char → Option (List Char × List Char)
  | [] => none
  | '"' :: rest => some ([], rest)
  | '\\' :: c :: rest =>
    match escChar c with
    | some d => (parseStringBody rest).map (fun p => (d :: p.1, p.2))
    | none => none
  | '\\' :: [] => none
  | c :: rest => (parseStringBody rest).map (fun p => (c :: p.1, p.2))

/-- Parse one `"key":"value"` member of a flat JSON object. -/
def parseMember (l : List Char) : Option ((String × String) × List Char) :=
  match l with
  | '"' :: kbody =>
    match parseStringBody kbody with
    | some (k, ':' :: '"' :: vbody) =>
      match parseStringBody vbody with
      | some (v, rest) => some ((String.mk k, String.mk v), rest)
      | none => none
    | _ => none
  | _ => none

/-- After one member of a flat JSON object: either the closing brace, or a
comma followed by further members.  Fuel-indexed for termination;
`parseFlatObject` supplies the input length, which bounds the member count. -/
def parseMoreMembers : Nat → List Char → Option (List (String × String) × List Char)
  | _, '\x7d' :: rest => some ([], rest)
  | fuel + 1, ',' :: l =>
    match parseMember l with
    | some (kv, rest) => (parseMoreMembers fuel rest).map (fun p => (kv :: p.1, p.2))
    | none => none
  | _, _ => none

/-- `JSON.parse` restricted to the values this wire protocol's data lines
carry: a single flat object whose keys and values are JSON strings, with no
surrounding whitespace.  This covers every framed event except `sources`
(whose payload is a JSON list): in the model such a line fails to parse and is
skipped, while `JSON.parse` would accept it — no claim under proof exercises a
`sources` line, and no other divergence exists on flat string objects. -/
def parseFlatObject (s : String) : Option (List (String × String)) :=
  match s.data with
  | '\x7b' :: rest =>
    match rest with
    | '\x7d' :: rest2 => if rest2 = [] then some [] else none
    | _ =>
      match parseMember rest with
      | some (kv, rest2) =>
        match parseMoreMembers rest2.length rest2 with
        | some (kvs, rest3) => if rest3 = [] then some (kv :: kvs) else none
        | none => none
      | none => none
  | _ => none

/-- Field access `obj.k` on a parsed flat object.  As in a JS object literal,
a duplicated key takes its last occurrence. -/
def fieldVal (k : String) (fs : List (String × String)) : Option String :=
  ((fs.filter (fun p => p.1 == k)).getLast?).map (fun p => p.2)

/-- The typed view of a dispatched object, per the `switch (data.type)` arms
of `ChatManager.sendMessage`. -/
def eventOfFields (fs : List (String × String)) : StreamEvent :=
  match fieldVal "type" fs with
  | some "start" => .start
  | some "progress" => .progress (fieldVal "message" fs)
  | some "content" => .content (fieldVal "content" fs)
  | some "sources" => .sources []
  | some "done" => .done
  | some "error" => .error (fieldVal "message" fs)
  | t => .other t

/-- `chunk.split('\n')` from the reader loop of `SearchAPI.searchStream`, on
character lists.  As in JS, empty segments are kept:
`"a\n".split('\n') = ["a", ""]`. -/
def splitNL : List Char → List (List Char)
  | [] => [[]]
  | '\n' :: rest => [] :: splitNL rest
  | c :: rest =>
    match splitNL rest with
    | [] => [[c]]
    | l :: ls => (c :: l) :: ls

/-- One line of the reader loop of `searchStream`: a line starting with
`data: ` has that 6-character prefix sliced off and the remainder parsed as
JSON; a parse failure is logged and skipped (`none` here), and any line
without the prefix is ignored. -/
def dataLineEvent : List Char → Option StreamEvent
  | 'd' :: 'a' :: 't' :: 'a' :: ':' :: ' ' :: rest =>
    (parseFlatObject (String.mk rest)).map eventOfFields
  | _ => none

/-- The events `searchStream` dispatches for one decoded chunk: the chunk is
split on newline and each `data: ` line that parses is dispatched.  The
source keeps no carry-over buffer between chunks: each chunk is processed
independently, including its trailing partial line. -/
def chunkEvents (chunk : List Char) : List StreamEvent :=
  (splitNL chunk).filterMap dataLineEvent

/-- All events `SearchAPI.searchStream` delivers to `onMessage` over the life
of the response body, given the decoded text chunks in arrival order. -/
def searchStreamEvents (chunks : List String) : List StreamEvent :=
  ((chunks.map (fun c => chunkEvents c.data)).flatten)

/-! ### JS `Map` on string keys, as an insertion-ordered association list -/

/-- `Map.prototype.set`: replaces the value in place when the key is present,
appends the pair otherwise. -/
def mapSet (k : String) (v : α) : List (String × α) → List (String × α)
  | [] => [(k, v)]
  | (k2, v2) :: rest =>
    if k2 = k then (k, v) :: rest else (k2, v2) :: mapSet k v rest

/-- `Map.prototype.get` (absent keys give `undefined`, here `none`). -/
def mapGet (k : String) : List (String × α) → Option α
  | [] => none
  | (k2, v) :: rest => if k2 = k then some v else mapGet k rest

/-- `Map.prototype.delete`. -/
def mapDelete (k : String) : List (String × α) → List (String × α)
  | [] => []
  | (k2, v) :: rest => if k2 = k then rest else (k2, v) :: mapDelete k rest

theorem mapGet_mapSet (k : String) (v : α) (c : List (String × α)) :
    mapGet k (mapSet k v c) = some v := by
  induction c with
  | nil => simp [mapSet, mapGet]
  | cons p rest ih =>
    obtain ⟨k2, v2⟩ := p
    by_cases h : k2 = k <;> simp [mapSet, mapGet, h, ih]

/-! ### `CacheManager` (api.js) -/

namespace CacheManager

/-- A stored cache item `{ data, expireTime }`. -/
structure Entry (α : Type) where
  data : α
  expireTime : Nat
deriving DecidableEq, Repr

/-- The `CacheManager.cache` map. -/
abbrev Store (α : Type) := List (String × Entry α)

/-- `CacheManager.defaultTTL` (5 minutes in ms). -/
def defaultTTL : Nat := 5 * 60 * 1000

/-- `CacheManager.set`: stores `{ data, expireTime := Date.now() + ttl }`
under `key`.  `now` makes the `Date.now()` clock read explicit. -/
def set (now : Nat) (c : Store α) (key : String) (data : α) (ttl : Nat) :
    Store α :=
  mapSet key { data := data, expireTime := now + ttl } c

/-- `CacheManager.get`: an absent key gives `null`; an entry with
`Date.now() > expireTime` is deleted from the map and `null` returned;
otherwise the stored data is returned.  The returned pair carries the result
and the updated map (the eviction side effect). -/
def get (now : Nat) (c : Store α) (key : String) : Option α × Store α :=
  match mapGet key c with
  | none => (none, c)
  | some item =>
    if now > item.expireTime then (none, mapDelete key c)
    else (some item.data, c)

/-- `CacheManager.delete`. -/
def delete (c : Store α) (key : String) : Store α :=
  mapDelete key c

end CacheManager

/-! ### `RequestRetrier` (api.js) -/

namespace RequestRetrier

/-- Character-list prefix test used to express `String.prototype.includes`. -/
def isPrefixChars (sub l : List Char) : Bool :=
  match sub with
  | [] => true
  | a :: as =>
    match l with
    | [] => false
    | b :: bs => if a = b then isPrefixChars as bs else false

/-- All-positions substring search over character lists. -/
def containsSub (sub : List Char) : List Char → Bool
  | [] => isPrefixChars sub []
  | c :: rest => isPrefixChars sub (c :: rest) || containsSub sub rest

/-- JS `s.includes(sub)`. -/
def strIncludes (s sub : String) : Bool :=
  containsSub sub.data s.data

/-- `RequestRetrier.shouldRetry`: retry iff `error.message` contains one of
the literal substrings `'网络'`, `'timeout'`, `'500'`, `'502'`, `'503'`,
`'504'`. -/
def shouldRetry (msg : String) : Bool :=
  strIncludes msg "网络" || strIncludes msg "timeout" ||
  strIncludes msg "500" || strIncludes msg "502" ||
  strIncludes msg "503" || strIncludes msg "504"

/-- Constructor default `maxRetries` of `RequestRetrier` (the module-level
`retrier` instance is built with `new RequestRetrier()`). -/
def defaultMaxRetries : Nat := 3

/-- Constructor default `delay` (the backoff base, in ms). -/
def defaultDelay : Nat := 1000

/-- The loop body of `RequestRetrier.execute` from iteration `i` with
`remaining = maxRetries - i` iterations left after this one.  `attempt i`
is the outcome of the `i`-th invocation of `requestFn` (`Except.error` models
a thrown error, carrying `error.message`).  Returns the overall outcome (the
value returned, or the `lastError` thrown after the loop), the number of
tries performed, and the list of backoff waits `delay * 2 ^ i` performed. -/
def executeGo (attempt : Nat → Except String α) (delay i : Nat) :
    Nat → Except String α × Nat × List Nat
  | 0 =>
    (match attempt i with
     | .ok v => (.ok v, 1, [])
     | .error e => (.error e, 1, []))
  | remaining + 1 =>
    match attempt i with
    | .ok v => (.ok v, 1, [])
    | .error e =>
      if shouldRetry e then
        let r := executeGo attempt delay (i + 1) remaining
        (r.1, r.2.1 + 1, delay * 2 ^ i :: r.2.2)
      else (.error e, 1, [])

/-- `RequestRetrier.execute`: run up to `maxRetries + 1` tries from `i = 0`. -/
def execute (attempt : Nat → Except String α) (maxRetries delay : Nat) :
    Except String α × Nat × List Nat :=
  executeGo attempt delay 0 maxRetries

end RequestRetrier

/-! ### `ApiClient` error messages (api.js) -/

namespace ApiClient

/-- The message of the error `ApiClient.request` throws when the
`AbortController` fires at the timeout (`'请求超时'`); `ApiClient.upload`'s
XHR timeout listener rejects with the same message. -/
def timeoutErrorMessage : String := "请求超时"

/-- The message the upload XHR error listener rejects with (`'网络错误'`). -/
def networkErrorMessage : String := "网络错误"

end ApiClient

/-! ### `FileManager` (app.js): job poller and delete -/

namespace FileManager

/-- One status response observed by the `checkStatus` closure of
`FileManager.monitorFileProcessing`: `ok ps` is a response with
`success: true` and `data.process_status = ps`; `notSuccess` one with
`success: false`; `netError` a request that threw. -/
inductive PollResponse where
  | ok (processStatus : String)
  | notSuccess
  | netError
deriving DecidableEq, Repr

/-- A terminal notification raised by `checkStatus`
(`Utils.Notification.success '处理完成'` / `Utils.Notification.error '处理失败'`). -/
inductive PollNote where
  | completedNote
  | failedNote
deriving DecidableEq, Repr

/-- The `checkStatus` loop of `monitorFileProcessing`, consuming one response
per performed check.  Returns the number of checks performed, the delays of
the `setTimeout` calls scheduled between checks (always 3000ms, scheduled
only on a `processing` response), and the notifications raised.  A
`completed`/`failed` response notifies and stops; a `processing` response
schedules the next check; any other outcome — a thrown error, a
`success: false` response, or any other `process_status` value — falls
through with no further `setTimeout` and no notification. -/
def pollSteps : List PollResponse → Nat × List Nat × List PollNote
  | [] => (0, [], [])
  | PollResponse.ok ps :: rest =>
    if ps = "completed" then (1, [], [.completedNote])
    else if ps = "failed" then (1, [], [.failedNote])
    else if ps = "processing" then
      let r := pollSteps rest
      (r.1 + 1, 3000 :: r.2.1, r.2.2)
    else (1, [], [])
  | PollResponse.notSuccess :: _ => (1, [], [])
  | PollResponse.netError :: _ => (1, [], [])

/-- `FileManager.monitorFileProcessing`: schedules the first check with
`setTimeout(checkStatus, 2000)` and then runs the `checkStatus` loop.
Returns the number of checks performed, the delay scheduled before each
performed check (2000ms, then 3000ms after each `processing` response), and
the notifications raised. -/
def monitorFileProcessing (responses : List PollResponse) :
    Nat × List Nat × List PollNote :=
  let r := pollSteps responses
  (r.1, if r.1 = 0 then [] else 2000 :: r.2.1, r.2.2)

/-- The `FileManager` state that `performDeleteFile` can touch, together with
the module-level `CacheManager` store (values are the cached file-id lists a
hypothetical cache user would have stored). -/
structure FMState where
  selectedFiles : List Nat
  cache : CacheManager.Store (List Nat)
deriving DecidableEq, Repr

/-- `FileManager.performDeleteFile`: on a `success: true` response it
notifies, removes the id from `selectedFiles`, and refreshes the file list;
on failure it shows the error.  No branch reads, writes, or invalidates
`CacheManager`, so the cache component passes through unchanged. -/
def performDeleteFile (fileId : Nat) (ok : Bool) (s : FMState) : FMState :=
  if ok then
    { s with selectedFiles := s.selectedFiles.filter (fun x => x != fileId) }
  else s

end FileManager

/-! ### `ChatManager` (app.js): stream handler and busy guard -/

namespace ChatManager

/-- The per-stream handler state of `ChatManager.sendMessage`: the local
`assistantMessage` and `sources` accumulators of the `onMessage` closure, the
argument of every `updateStreamingMessage` call (the running transcript the
caller is notified with), and the `finalizeStreamingMessage` /
`showErrorMessage` outcomes. -/
structure StreamRun where
  assistantMessage : String
  sources : List String
  uiUpdates : List String
  finalized : Option (String × List String)
  errorShown : Option (Option String)
deriving DecidableEq, Repr

/-- The handler state at the top of `sendMessage`'s try block
(`let assistantMessage = ''; let sources = [];`). -/
def emptyRun : StreamRun :=
  { assistantMessage := "", sources := [], uiUpdates := [],
    finalized := none, errorShown := none }

/-- JS string coercion applied by `+=` to a possibly-`undefined` field. -/
def jsStr : Option String → String
  | some s => s
  | none => "undefined"

/-- The `switch (data.type)` arms of the `onMessage` closure in
`sendMessage`.  `start` and `progress` only update the chat status line;
`content` appends to `assistantMessage` and calls `updateStreamingMessage`
with the whole accumulated transcript; `sources` overwrites the `sources`
accumulator; `done` finalizes the (transcript, sources) pair; `error` shows
the message; an unrecognized `type` matches no case and does nothing. -/
def handleEvent (r : StreamRun) : StreamEvent → StreamRun
  | .start => r
  | .progress _ => r
  | .content c =>
    let m := r.assistantMessage ++ jsStr c
    { r with assistantMessage := m, uiUpdates := r.uiUpdates ++ [m] }
  | .sources ss => { r with sources := ss }
  | .done => { r with finalized := some (r.assistantMessage, r.sources) }
  | .error m => { r with errorShown := some m }
  | .other _ => r

/-- The handler run over a sequence of dispatched events. -/
def runEvents (events : List StreamEvent) (r : StreamRun) : StreamRun :=
  events.foldl handleEvent r

/-- Concatenation of content fragments (the transcript of §3). -/
def concatFrags : List String → String
  | [] => ""
  | f :: fs => f ++ concatFrags fs

/-- The successive `updateStreamingMessage` arguments produced while
appending fragments to a transcript that currently reads `acc`. -/
def notifListFrom (acc : String) : List String → List String
  | [] => []
  | f :: fs => (acc ++ f) :: notifListFrom (acc ++ f) fs

/-- The `ChatManager` field the busy guard reads. -/
structure ChatState where
  isStreaming : Bool
deriving DecidableEq, Repr

/-- Outcome of a `sendMessage` invocation at its guard clauses. -/
inductive SendOutcome where
  | noInput
  | busy
  | started
deriving DecidableEq, Repr

/-- The guard prefix of `ChatManager.sendMessage`: an empty trimmed query
returns silently (`noInput`); otherwise, while `isStreaming` is set, the
call raises the `'请等待当前回答完成'` warning and returns (`busy`); otherwise
the stream is started. -/
def sendMessageGuard (query : String) (s : ChatState) : SendOutcome :=
  if query = "" then .noInput
  else if s.isStreaming then .busy
  else .started

/-- `ChatManager.sendMessage` against the event sequence its stream would
deliver: only the `started` outcome dispatches those events to a fresh
handler run; a `noInput` or `busy` outcome starts no stream, so it dispatches
no events and produces no handler state beyond the initial one.  Returns the
guard outcome, the events this call dispatched, and this call's handler
state. -/
def sendMessage (query : String) (events : List StreamEvent) (s : ChatState) :
    SendOutcome × List StreamEvent × StreamRun :=
  match sendMessageGuard query s with
  | .started => (.started, events, runEvents events emptyRun)
  | o => (o, [], emptyRun)

end ChatManager

/-! ### `RequestInterceptor` (api.js): in-flight request deduplication

The promise world is modelled explicitly: a pending promise is a fresh
numeric id; callbacks attach to an id in order, and when the promise settles
its callbacks run in the order they were attached (JS promise reactions run
in registration order on the microtask queue). -/

namespace RequestInterceptor

/-- A callback attached to a pending promise: the `finally` cleanup that
`addRequest` registers, or the outcome handler of a caller awaiting it. -/
inductive Cb where
  | removeEntry (key : String)
  | deliver (caller : Nat)
deriving DecidableEq, Repr

/-- Promise outcome: resolution value or rejection error. -/
inductive Outcome where
  | ok (v : Nat)
  | err (e : String)
deriving DecidableEq, Repr

/-- The shared state: the `requestQueue` map of `RequestInterceptor`
(key → pending promise id), a fresh-id counter, the number of underlying
network calls started so far, and the registration-ordered callbacks of the
pending promises. -/
structure St where
  requestQueue : List (String × Nat)
  nextId : Nat
  calls : Nat
  cbs : List (Nat × Cb)
deriving DecidableEq, Repr

/-- Fresh state (an empty `requestQueue`, as at module load). -/
def init : St := { requestQueue := [], nextId := 0, calls := 0, cbs := [] }

/-- `RequestInterceptor.cancelDuplicate`: the pending promise registered for
`key`, when the queue has one, else `null`. -/
def cancelDuplicate (key : String) (s : St) : Option Nat :=
  mapGet key s.requestQueue

/-- `RequestInterceptor.addRequest`: stores the promise under `key` in
`requestQueue` and attaches `promise.finally(() => requestQueue.delete(key))`
— the cleanup is therefore the first callback attached to the promise. -/
def addRequest (key : String) (pid : Nat) (s : St) : St :=
  { s with requestQueue := mapSet key pid s.requestQueue,
           cbs := s.cbs ++ [(pid, .removeEntry key)] }

/-- Modelled from the spec: the `joinOrStart(key, factory)` usage protocol of
§4.4.  The repository exports `RequestInterceptor` but contains no caller of
it, so the deduplicating wrapper around the two source methods is taken from
the spec's words: consult `cancelDuplicate`; when it yields a pending
promise, attach the caller to it; otherwise run the factory (one underlying
network call yielding a fresh pending promise), register it with
`addRequest`, and attach the caller.  The caller's outcome handler is
attached after `addRequest`'s cleanup in either branch, mirroring `await
addRequest(key, factory())`. -/
def joinOrStart (caller : Nat) (key : String) (s : St) : Nat × St :=
  match cancelDuplicate key s with
  | some pid => (pid, { s with cbs := s.cbs ++ [(pid, .deliver caller)] })
  | none =>
    let pid := s.nextId
    let s2 := addRequest key pid
      { s with nextId := s.nextId + 1, calls := s.calls + 1 }
    (pid, { s2 with cbs := s2.cbs ++ [(pid, .deliver caller)] })

/-- An observable action performed while a settled promise's callbacks run. -/
inductive Action where
  | removed (key : String)
  | delivered (caller : Nat) (o : Outcome)
deriving DecidableEq, Repr

/-- Run the callbacks attached to the settled promise `pid` in registration
order, tracking the `requestQueue` as the `finally` cleanups delete from it. -/
def runCbs (pid : Nat) (o : Outcome) :
    List (String × Nat) → List (Nat × Cb) → List Action × List (String × Nat)
  | q, [] => ([], q)
  | q, (pid2, cb) :: rest =>
    if pid2 = pid then
      match cb with
      | .removeEntry k =>
        let r := runCbs pid o (mapDelete k q) rest
        (.removed k :: r.1, r.2)
      | .deliver c =>
        let r := runCbs pid o q rest
        (.delivered c o :: r.1, r.2)
    else runCbs pid o q rest

/-- Settle promise `pid` with outcome `o`: its callbacks run in order and
are consumed. -/
def settle (pid : Nat) (o : Outcome) (s : St) : List Action × St :=
  let r := runCbs pid o s.requestQueue s.cbs
  (r.1, { s with requestQueue := r.2,
                 cbs := s.cbs.filter (fun p => p.1 != pid) })

end RequestInterceptor

/-! ## Theorems -/

/-- C1: counterexample — `SearchAPI.searchStream` keeps no carry-over buffer,
so for the chunk sequence `"data: {"type":"sta"`, `"rt"}\n"`,
`"data: {"type":"content","content":"Hi"}\n"` the subscriber does not
receive the events `start` then `content("Hi")`: the line split across the
chunk boundary is never reassembled (its first piece fails `JSON.parse`, its
second piece lacks the `data: ` prefix), so `start` is lost. -/
theorem searchStream_split_line_lost :
    searchStreamEvents ["data: \x7b\"type\":\"sta", "rt\"\x7d\n",
        "data: \x7b\"type\":\"content\",\"content\":\"Hi\"\x7d\n"] ≠
      [StreamEvent.start, StreamEvent.content (some "Hi")] := by decide

/-- C1 (amended): `searchStream` processes every chunk independently — the
events of a chunk sequence are the concatenation of each chunk's own events,
with no state carried between chunks — and a line split across a chunk
boundary is dropped, so for the claim's chunk sequence the subscriber
receives exactly `content("Hi")`; the `start` event of the split line is
lost. -/
theorem searchStream_chunkwise :
    (∀ cs1 cs2 : List String, searchStreamEvents (cs1 ++ cs2) =
        searchStreamEvents cs1 ++ searchStreamEvents cs2) ∧
    searchStreamEvents ["data: \x7b\"type\":\"sta", "rt\"\x7d\n",
        "data: \x7b\"type\":\"content\",\"content\":\"Hi\"\x7d\n"] =
      [StreamEvent.content (some "Hi")] := by
  refine ⟨fun cs1 cs2 => ?_, by decide⟩
  simp [searchStreamEvents]

/-- Evaluation of `CacheManager.get` on a store just written by
`CacheManager.set`: the value is served strictly until, and including, the
instant `storedAt + ttl`; strictly after it the entry is evicted and absent. -/
theorem cacheGet_cacheSet {α : Type} (now storedAt ttl : Nat)
    (c : CacheManager.Store α) (k : String) (v : α) :
    CacheManager.get now (CacheManager.set storedAt c k v ttl) k =
      if storedAt + ttl < now
      then (none, CacheManager.delete (CacheManager.set storedAt c k v ttl) k)
      else (some v, CacheManager.set storedAt c k v ttl) := by
  simp [CacheManager.get, CacheManager.set, CacheManager.delete,
    mapGet_mapSet]

/-- C2: counterexample — at `now = storedAt + ttl` exactly (storedAt 0,
ttl 100, now 100), `CacheManager.get` still returns the stored value: the
source tests `Date.now() > item.expireTime`, so the claimed
absent-and-evict behaviour at the expiry instant does not hold. -/
theorem cacheGet_at_expiry_returns_value :
    100 ≥ 0 + 100 ∧
      (CacheManager.get 100
          (CacheManager.set 0 ([] : CacheManager.Store Nat) "k" 42 100)
          "k").1 = some 42 := by decide

/-- C2 (amended): for an entry stored at `storedAt` with lifetime `ttl`,
`CacheManager.get` at time `now` returns the stored value iff
`now ≤ storedAt + ttl` (the entry is still served at the expiry instant
itself), and strictly after that instant it returns absent and deletes the
entry as a side effect. -/
theorem cacheGet_valid_iff {α : Type} (now storedAt ttl : Nat)
    (c : CacheManager.Store α) (k : String) (v : α) :
    ((CacheManager.get now (CacheManager.set storedAt c k v ttl) k).1 = some v
        ↔ now ≤ storedAt + ttl) ∧
    (storedAt + ttl < now →
      CacheManager.get now (CacheManager.set storedAt c k v ttl) k =
        (none, CacheManager.delete (CacheManager.set storedAt c k v ttl) k)) :=
  by
  constructor
  · rw [cacheGet_cacheSet]
    by_cases h : storedAt + ttl < now
    · simp [h]
    · simp [h]
      omega
  · intro h
    rw [cacheGet_cacheSet, if_pos h]

/-- Witness for the amended C2 theorem at `now = 250`, `storedAt = 0`,
`ttl = 100`. -/
theorem cacheGet_valid_iff_witness :
    CacheManager.get 250
        (CacheManager.set 0 ([] : CacheManager.Store Nat) "k" 5 100) "k" =
      (none,
        CacheManager.delete
          (CacheManager.set 0 ([] : CacheManager.Store Nat) "k" 5 100) "k") :=
  (cacheGet_valid_iff 250 0 100 [] "k" 5).2 (by decide)

/-- C3: the code at the claim's discriminating input — the timeout error
`ApiClient.request` throws (message `'请求超时'`, likewise the upload XHR
timeout) contains none of the substrings `RequestRetrier.shouldRetry` looks
for, so an error produced by a request timing out is classified terminal,
although the claim (and the `'timeout'` substring test inside `shouldRetry`
itself, which can never match an error this codebase produces) intends
timeouts to be retryable. -/
theorem shouldRetry_rejects_own_timeout :
    RequestRetrier.shouldRetry ApiClient.timeoutErrorMessage = false := by
  decide

/-- C4: with the default configuration (3 retries, so 4 total tries, base
delay `base`), an operation whose every attempt throws a retryable error is
tried exactly 4 times, with backoff waits `base * 2^i = base, 2*base, 4*base`
after failed attempts 0, 1, 2, and the overall call surfaces the error of the
last attempt unchanged. -/
theorem execute_exhausts_with_backoff {α : Type}
    (attempt : Nat → Except String α) (errs : Nat → String)
    (h : ∀ i, i ≤ 3 → attempt i = Except.error (errs i))
    (hr : ∀ i, i ≤ 3 → RequestRetrier.shouldRetry (errs i) = true)
    (base : Nat) :
    RequestRetrier.execute attempt RequestRetrier.defaultMaxRetries base =
      (Except.error (errs 3), 4, [base, 2 * base, 4 * base]) := by
  have h0 := h 0 (by omega); have h1 := h 1 (by omega)
  have h2 := h 2 (by omega); have h3 := h 3 (by omega)
  have r0 := hr 0 (by omega); have r1 := hr 1 (by omega)
  have r2 := hr 2 (by omega)
  simp [RequestRetrier.execute, RequestRetrier.defaultMaxRetries,
    RequestRetrier.executeGo, h0, h1, h2, h3, r0, r1, r2, pow_succ,
    Nat.mul_comm]

/-- Witness for C4: every attempt fails with `'HTTP 503'` (retryable) and
base 1000ms: 4 tries, waits 1000, 2000, 4000, final error `'HTTP 503'`. -/
theorem execute_exhausts_with_backoff_witness :
    RequestRetrier.execute
        (fun _ => (Except.error "HTTP 503" : Except String Nat))
        RequestRetrier.defaultMaxRetries 1000 =
      (Except.error "HTTP 503", 4, [1000, 2000, 4000]) := by
  have hr : RequestRetrier.shouldRetry "HTTP 503" = true := by decide
  simpa using execute_exhausts_with_backoff
    (fun _ => (Except.error "HTTP 503" : Except String Nat))
    (fun _ => "HTTP 503") (fun _ _ => rfl) (fun _ _ => hr) 1000

/-- A key that `mapGet` misses occurs nowhere in the list. -/
theorem mapGet_eq_none_iff (k : String) (l : List (String × α)) :
    mapGet k l = none ↔ ∀ p ∈ l, p.1 ≠ k := by
  induction l with
  | nil => simp [mapGet]
  | cons p rest ih =>
    obtain ⟨k2, v⟩ := p
    by_cases h : k2 = k <;> simp [mapGet, h, ih]

/-- `Map.set` on an absent key appends the pair. -/
theorem mapSet_of_absent (k : String) (v : α) (l : List (String × α))
    (h : mapGet k l = none) : mapSet k v l = l ++ [(k, v)] := by
  induction l with
  | nil => simp [mapSet]
  | cons p rest ih =>
    obtain ⟨k2, v2⟩ := p
    by_cases hk : k2 = k
    · subst hk
      simp [mapGet] at h
    · simp [mapGet, hk] at h
      simp [mapSet, hk, ih h]

/-- `Map.delete` of a key found only in the appended final pair. -/
theorem mapDelete_append_of_absent (k : String) (v : α)
    (l : List (String × α)) (h : mapGet k l = none) :
    mapDelete k (l ++ [(k, v)]) = l := by
  induction l with
  | nil => simp [mapDelete]
  | cons p rest ih =>
    obtain ⟨k2, v2⟩ := p
    by_cases hk : k2 = k
    · subst hk
      simp [mapGet] at h
    · simp [mapGet, hk] at h
      simp [mapDelete, hk, ih h]

/-- Callbacks attached to other promises are skipped without effect. -/
theorem runCbs_append_skip (pid : Nat) (o : RequestInterceptor.Outcome)
    (l1 l2 : List (Nat × RequestInterceptor.Cb)) (q : List (String × Nat))
    (h : ∀ p ∈ l1, p.1 ≠ pid) :
    RequestInterceptor.runCbs pid o q (l1 ++ l2) =
      RequestInterceptor.runCbs pid o q l2 := by
  induction l1 with
  | nil => simp
  | cons p rest ih =>
    obtain ⟨pid2, cb⟩ := p
    have hne : pid2 ≠ pid := h (pid2, cb) (by simp)
    rw [List.cons_append]
    rw [show RequestInterceptor.runCbs pid o q ((pid2, cb) :: (rest ++ l2)) =
        RequestInterceptor.runCbs pid o q (rest ++ l2) by
      simp [RequestInterceptor.runCbs, hne]]
    exact ih (fun p hp => h p (by simp [hp]))

/-- C5: two calls through the deduplicating wrapper for the same key before
the first settles join one pending promise: the second call starts no new
network call; at settlement the `finally` cleanup removes the in-flight entry
before either caller's outcome handler runs, and both callers are delivered
the same outcome; afterwards the queue no longer holds the key, so a third
call for it starts fresh work (a new underlying network call). -/
theorem dedup_two_calls_one_network (k : String) (c1 c2 c3 : Nat)
    (o : RequestInterceptor.Outcome) (s : RequestInterceptor.St)
    (hk : mapGet k s.requestQueue = none)
    (hcb : ∀ p ∈ s.cbs, p.1 < s.nextId) :
    (RequestInterceptor.joinOrStart c2 k
        (RequestInterceptor.joinOrStart c1 k s).2).1 =
      (RequestInterceptor.joinOrStart c1 k s).1 ∧
    (RequestInterceptor.joinOrStart c2 k
        (RequestInterceptor.joinOrStart c1 k s).2).2.calls = s.calls + 1 ∧
    (RequestInterceptor.settle (RequestInterceptor.joinOrStart c1 k s).1 o
        (RequestInterceptor.joinOrStart c2 k
          (RequestInterceptor.joinOrStart c1 k s).2).2).1 =
      [RequestInterceptor.Action.removed k,
        RequestInterceptor.Action.delivered c1 o,
        RequestInterceptor.Action.delivered c2 o] ∧
    mapGet k
        (RequestInterceptor.settle (RequestInterceptor.joinOrStart c1 k s).1 o
          (RequestInterceptor.joinOrStart c2 k
            (RequestInterceptor.joinOrStart c1 k s).2).2).2.requestQueue =
      none ∧
    (RequestInterceptor.joinOrStart c3 k
        (RequestInterceptor.settle (RequestInterceptor.joinOrStart c1 k s).1 o
          (RequestInterceptor.joinOrStart c2 k
            (RequestInterceptor.joinOrStart c1 k s).2).2).2).2.calls =
      (RequestInterceptor.settle (RequestInterceptor.joinOrStart c1 k s).1 o
          (RequestInterceptor.joinOrStart c2 k
            (RequestInterceptor.joinOrStart c1 k s).2).2).2.calls + 1 := by
  have hpid : ∀ p ∈ s.cbs, p.1 ≠ s.nextId :=
    fun p hp => Nat.ne_of_lt (hcb p hp)
  have hj1 : RequestInterceptor.joinOrStart c1 k s =
      (s.nextId,
        { requestQueue := mapSet k s.nextId s.requestQueue,
          nextId := s.nextId + 1, calls := s.calls + 1,
          cbs := s.cbs ++
            [(s.nextId, RequestInterceptor.Cb.removeEntry k),
              (s.nextId, RequestInterceptor.Cb.deliver c1)] }) := by
    simp [RequestInterceptor.joinOrStart, RequestInterceptor.cancelDuplicate,
      RequestInterceptor.addRequest, hk]
  have hj2 : RequestInterceptor.joinOrStart c2 k
      (RequestInterceptor.joinOrStart c1 k s).2 =
      (s.nextId,
        { requestQueue := mapSet k s.nextId s.requestQueue,
          nextId := s.nextId + 1, calls := s.calls + 1,
          cbs := s.cbs ++
            [(s.nextId, RequestInterceptor.Cb.removeEntry k),
              (s.nextId, RequestInterceptor.Cb.deliver c1),
              (s.nextId, RequestInterceptor.Cb.deliver c2)] }) := by
    rw [hj1]
    simp [RequestInterceptor.joinOrStart, RequestInterceptor.cancelDuplicate,
      mapGet_mapSet]
  have hrun : RequestInterceptor.runCbs s.nextId o
      (mapSet k s.nextId s.requestQueue)
      (s.cbs ++
        [(s.nextId, RequestInterceptor.Cb.removeEntry k),
          (s.nextId, RequestInterceptor.Cb.deliver c1),
          (s.nextId, RequestInterceptor.Cb.deliver c2)]) =
      ([RequestInterceptor.Action.removed k,
        RequestInterceptor.Action.delivered c1 o,
        RequestInterceptor.Action.delivered c2 o], s.requestQueue) := by
    rw [runCbs_append_skip s.nextId o s.cbs _ _ hpid]
    have hq : mapDelete k (mapSet k s.nextId s.requestQueue) =
        s.requestQueue := by
      rw [mapSet_of_absent k s.nextId s.requestQueue hk,
        mapDelete_append_of_absent k s.nextId s.requestQueue hk]
    simp [RequestInterceptor.runCbs, hq]
  have hsettle : RequestInterceptor.settle
      (RequestInterceptor.joinOrStart c1 k s).1 o
      (RequestInterceptor.joinOrStart c2 k
        (RequestInterceptor.joinOrStart c1 k s).2).2 =
      ([RequestInterceptor.Action.removed k,
        RequestInterceptor.Action.delivered c1 o,
        RequestInterceptor.Action.delivered c2 o],
        { requestQueue := s.requestQueue, nextId := s.nextId + 1,
          calls := s.calls + 1,
          cbs := (s.cbs ++
            [(s.nextId, RequestInterceptor.Cb.removeEntry k),
              (s.nextId, RequestInterceptor.Cb.deliver c1),
              (s.nextId, RequestInterceptor.Cb.deliver c2)]).filter
            (fun p => p.1 != s.nextId) }) := by
    rw [hj2, hj1]
    simp [RequestInterceptor.settle, hrun]
  refine ⟨?_, ?_, ?_, ?_, ?_⟩
  · rw [hj2, hj1]
  · rw [hj2]
  · rw [hsettle]
  · rw [hsettle]
    exact hk
  · rw [hsettle]
    simp [RequestInterceptor.joinOrStart, RequestInterceptor.cancelDuplicate,
      RequestInterceptor.addRequest, hk]

/-- Witness for the C5 theorem: callers 0 and 1 join one call for key
`"GET /file/list"` from the initial state; it settles with `ok 7`; caller 2
then starts fresh work. -/
theorem dedup_two_calls_one_network_witness :
    (RequestInterceptor.joinOrStart 1 "GET /file/list"
        (RequestInterceptor.joinOrStart 0 "GET /file/list"
          RequestInterceptor.init).2).1 =
      (RequestInterceptor.joinOrStart 0 "GET /file/list"
        RequestInterceptor.init).1 ∧
    (RequestInterceptor.joinOrStart 1 "GET /file/list"
        (RequestInterceptor.joinOrStart 0 "GET /file/list"
          RequestInterceptor.init).2).2.calls =
      RequestInterceptor.init.calls + 1 ∧
    (RequestInterceptor.settle
        (RequestInterceptor.joinOrStart 0 "GET /file/list"
          RequestInterceptor.init).1 (RequestInterceptor.Outcome.ok 7)
        (RequestInterceptor.joinOrStart 1 "GET /file/list"
          (RequestInterceptor.joinOrStart 0 "GET /file/list"
            RequestInterceptor.init).2).2).1 =
      [RequestInterceptor.Action.removed "GET /file/list",
        RequestInterceptor.Action.delivered 0 (RequestInterceptor.Outcome.ok 7),
        RequestInterceptor.Action.delivered 1
          (RequestInterceptor.Outcome.ok 7)] ∧
    mapGet "GET /file/list"
        (RequestInterceptor.settle
          (RequestInterceptor.joinOrStart 0 "GET /file/list"
            RequestInterceptor.init).1 (RequestInterceptor.Outcome.ok 7)
          (RequestInterceptor.joinOrStart 1 "GET /file/list"
            (RequestInterceptor.joinOrStart 0 "GET /file/list"
              RequestInterceptor.init).2).2).2.requestQueue = none ∧
    (RequestInterceptor.joinOrStart 2 "GET /file/list"
        (RequestInterceptor.settle
          (RequestInterceptor.joinOrStart 0 "GET /file/list"
            RequestInterceptor.init).1 (RequestInterceptor.Outcome.ok 7)
          (RequestInterceptor.joinOrStart 1 "GET /file/list"
            (RequestInterceptor.joinOrStart 0 "GET /file/list"
              RequestInterceptor.init).2).2).2).2.calls =
      (RequestInterceptor.settle
          (RequestInterceptor.joinOrStart 0 "GET /file/list"
            RequestInterceptor.init).1 (RequestInterceptor.Outcome.ok 7)
          (RequestInterceptor.joinOrStart 1 "GET /file/list"
            (RequestInterceptor.joinOrStart 0 "GET /file/list"
              RequestInterceptor.init).2).2).2.calls + 1 :=
  dedup_two_calls_one_network "GET /file/list" 0 1 2
    (RequestInterceptor.Outcome.ok 7) RequestInterceptor.init rfl
    (by simp [RequestInterceptor.init])

/-- C6: counterexample — after a successful `performDeleteFile` of file 7, an
unexpired cached file list containing 7 (stored before the mutation) is still
served by `CacheManager.get`: the mutation performs no cache invalidation. -/
theorem deleteFile_stale_cache_served :
    7 ∈ ([7, 8] : List Nat) ∧
      (CacheManager.get 0
          (FileManager.performDeleteFile 7 true
            { selectedFiles := [7],
              cache := CacheManager.set 0 [] "fileList" [7, 8] 300000 }).cache
          "fileList").1 = some [7, 8] := by decide

/-- C6 (amended): `performDeleteFile` bypasses the cache read/write path but
performs no invalidation either — the `CacheManager` store passes through the
mutation unchanged (no code in the repository invalidates it), so a cached
list stored before the deletion, even one containing the deleted resource, is
still served afterwards until its ttl expires or it is explicitly deleted. -/
theorem performDeleteFile_leaves_cache (fileId : Nat) (ok : Bool)
    (now storedAt ttl : Nat) (k : String) (files : List Nat)
    (s : FileManager.FMState) (h : now ≤ storedAt + ttl) :
    (FileManager.performDeleteFile fileId ok
        { s with cache := CacheManager.set storedAt s.cache k files ttl }).cache
      = CacheManager.set storedAt s.cache k files ttl ∧
    (CacheManager.get now
        (FileManager.performDeleteFile fileId ok
          { s with
              cache := CacheManager.set storedAt s.cache k files ttl }).cache
        k).1 = some files := by
  have hc : (FileManager.performDeleteFile fileId ok
      { s with cache := CacheManager.set storedAt s.cache k files ttl }).cache
      = CacheManager.set storedAt s.cache k files ttl := by
    by_cases hok : ok <;> simp [FileManager.performDeleteFile, hok]
  refine ⟨hc, ?_⟩
  rw [hc, cacheGet_cacheSet, if_neg (by omega)]

/-- Witness for the amended C6 theorem: file 7 deleted successfully while
`"fileList" ↦ [7, 8]` is cached (stored at 0, ttl 300000, read at 1000). -/
theorem performDeleteFile_leaves_cache_witness :
    (FileManager.performDeleteFile 7 true
        { selectedFiles := [7],
          cache := CacheManager.set 0 [] "fileList" [7, 8] 300000 }).cache
      = CacheManager.set 0 [] "fileList" [7, 8] 300000 ∧
    (CacheManager.get 1000
        (FileManager.performDeleteFile 7 true
          { selectedFiles := [7],
            cache := CacheManager.set 0 [] "fileList" [7, 8] 300000 }).cache
        "fileList").1 = some [7, 8] :=
  performDeleteFile_leaves_cache 7 true 1000 0 300000 "fileList" [7, 8]
    { selectedFiles := [7], cache := [] } (by omega)

/-- C7: while a stream is in flight the source keeps `isStreaming` true (it
is set before `searchStream` is awaited and cleared in the `finally`, so in
particular throughout the window from the `start` event to the terminal
event); a second `sendMessage` arriving in that window is rejected as busy —
it dispatches no events of its own and produces no handler state — and the
first stream's handler, split at the interruption point into events `e1`
then `e2`, still computes exactly the state of the uninterrupted run. -/
theorem second_stream_rejected_busy (e1 e2 se : List StreamEvent)
    (q2 : String) (h : q2 ≠ "") :
    ChatManager.sendMessage q2 se { isStreaming := true } =
        (ChatManager.SendOutcome.busy, [], ChatManager.emptyRun) ∧
    ChatManager.runEvents e2 (ChatManager.runEvents e1 ChatManager.emptyRun) =
      ChatManager.runEvents (e1 ++ e2) ChatManager.emptyRun := by
  constructor
  · simp [ChatManager.sendMessage, ChatManager.sendMessageGuard, h]
  · simp [ChatManager.runEvents, List.foldl_append]

/-- Witness for the C7 theorem: the second query `"hi"` arrives after the
first stream's `start` and before its `done`. -/
theorem second_stream_rejected_busy_witness :
    ChatManager.sendMessage "hi" [StreamEvent.done] { isStreaming := true } =
        (ChatManager.SendOutcome.busy, [], ChatManager.emptyRun) ∧
    ChatManager.runEvents [StreamEvent.done]
        (ChatManager.runEvents [StreamEvent.start] ChatManager.emptyRun) =
      ChatManager.runEvents ([StreamEvent.start] ++ [StreamEvent.done])
        ChatManager.emptyRun :=
  second_stream_rejected_busy [StreamEvent.start] [StreamEvent.done]
    [StreamEvent.done] "hi" (by decide)

/-- C8: a job whose successive status responses are `processing, processing,
processing, completed` — whatever responses might have followed — gets
exactly 4 status checks, the first scheduled 2000ms out and each subsequent
one 3000ms after a `processing` response, exactly one terminal notification
(for `completed`), and no further check is scheduled. -/
theorem monitor_processing3_completed (rest : List FileManager.PollResponse) :
    FileManager.monitorFileProcessing
        (FileManager.PollResponse.ok "processing" ::
          FileManager.PollResponse.ok "processing" ::
            FileManager.PollResponse.ok "processing" ::
              FileManager.PollResponse.ok "completed" :: rest) =
      (4, [2000, 3000, 3000, 3000], [FileManager.PollNote.completedNote]) := by
  simp [FileManager.monitorFileProcessing, FileManager.pollSteps]

/-- `runEvents` steps through one event at a time. -/
theorem runEvents_cons (e : StreamEvent) (es : List StreamEvent)
    (r : ChatManager.StreamRun) :
    ChatManager.runEvents (e :: es) r =
      ChatManager.runEvents es (ChatManager.handleEvent r e) := rfl

/-- `runEvents` over a concatenation is the two runs in sequence. -/
theorem runEvents_append (l1 l2 : List StreamEvent)
    (r : ChatManager.StreamRun) :
    ChatManager.runEvents (l1 ++ l2) r =
      ChatManager.runEvents l2 (ChatManager.runEvents l1 r) :=
  List.foldl_append ChatManager.handleEvent r l1 l2

/-- Accumulator form of the content-handling arms: running the handler over a
sequence of content events appends the concatenated fragments to the
transcript and notifies once per fragment with the full transcript so far. -/
theorem runEvents_contents (fs : List String) (r : ChatManager.StreamRun) :
    ChatManager.runEvents (fs.map (fun f => StreamEvent.content (some f))) r =
      { r with
          assistantMessage :=
            r.assistantMessage ++ ChatManager.concatFrags fs,
          uiUpdates :=
            r.uiUpdates ++ ChatManager.notifListFrom r.assistantMessage fs } :=
  by
  induction fs generalizing r with
  | nil =>
    simp [ChatManager.runEvents, ChatManager.concatFrags,
      ChatManager.notifListFrom]
  | cons f fs ih =>
    rw [List.map_cons, runEvents_cons, ih]
    simp [ChatManager.handleEvent, ChatManager.jsStr, ChatManager.concatFrags,
      ChatManager.notifListFrom, String.append_assoc]

/-- C9: a stream delivering `start`, a sequence of content fragments, then
`done` finalizes the transcript as the ordered concatenation of all
fragments, and every content event notified the caller
(`updateStreamingMessage`) with the full transcript accumulated so far, not
just the delta; in particular `start, content("A"), content("B"), done`
finalizes the transcript `"AB"` after notifying `"A"` then `"AB"`. -/
theorem stream_transcript_accumulates (fs : List String) :
    ChatManager.runEvents
        (StreamEvent.start ::
          (fs.map (fun f => StreamEvent.content (some f)) ++
            [StreamEvent.done])) ChatManager.emptyRun =
      { assistantMessage := ChatManager.concatFrags fs, sources := [],
        uiUpdates := ChatManager.notifListFrom "" fs,
        finalized := some (ChatManager.concatFrags fs, []),
        errorShown := none } ∧
    ChatManager.runEvents [StreamEvent.start, StreamEvent.content (some "A"),
        StreamEvent.content (some "B"), StreamEvent.done]
        ChatManager.emptyRun =
      { assistantMessage := "AB", sources := [], uiUpdates := ["A", "AB"],
        finalized := some ("AB", []), errorShown := none } := by
  constructor
  · rw [runEvents_cons, runEvents_append, runEvents_contents]
    simp [ChatManager.handleEvent, ChatManager.emptyRun,
      ChatManager.runEvents]
  · decide

/-- C10: a successful status response whose `process_status` is neither
`processing` nor a terminal state (e.g. `pending`) matches no branch of
`checkStatus`: the check that observed it is the last — no further check is
scheduled and no notification is raised, so polling stops silently. -/
theorem monitor_unknown_status_stops (ps : String)
    (rest : List FileManager.PollResponse)
    (h1 : ps ≠ "completed") (h2 : ps ≠ "failed") (h3 : ps ≠ "processing") :
    FileManager.monitorFileProcessing
        (FileManager.PollResponse.ok ps :: rest) = (1, [2000], []) := by
  simp [FileManager.monitorFileProcessing, FileManager.pollSteps, h1, h2, h3]

/-- Witness for the C10 theorem at `process_status = "pending"`. -/
theorem monitor_unknown_status_stops_witness :
    FileManager.monitorFileProcessing
        [FileManager.PollResponse.ok "pending"] = (1, [2000], []) :=
  monitor_unknown_status_stops "pending" [] (by decide) (by decide)
    (by decide)

end AIPdfDoc
